import Mathlib

/-!
Verification of the frame transform and temporal-synchronization pipeline of
`hevc_processor.c`, as a shallow embedding in Lean 4.

The embedding translates the deterministic parts of the program:

* the configuration constants (`#define` block at the top of the file);
* the timestamp policy of `main` (`timestamp_increment`, `output_pts`);
* the skip/decimation decision of the main decode loop;
* the packet construction of `write_nals_to_mp4` (pts, dts, keyframe flag);
* the extradata construction of `write_hevc_headers_to_mp4`;
* the raw-HEVC output path (start-code-prefixed NAL writes);
* the end-of-stream flush loop and its `next_pts` bookkeeping;
* the plane-pointer / stride setup of `prepare_for_encoding` and
  `process_frame_with_swscale`;
* the exit-code paths of `main`.

External libraries (libav decode, x265 encode, sws_scale, the MP4 muxer) are
modelled as opaque data: the decoder's output is a list of `Frame`s, and the
NAL sets the encoder returns are carried as data inside `Frame` and as a list
of flush-time NAL sets.
-/

set_option maxHeartbeats 1000000

namespace HevcProcessor

/-! ### Configuration constants (the #define block) -/

def INPUT_WIDTH : Nat := 5760

def INPUT_HEIGHT : Nat := 2880

def OUTPUT_WIDTH : Nat := 200

def OUTPUT_HEIGHT : Nat := 200

def FRAME_RATE : Nat := 50

def OUTPUT_TIMEBASE : Nat := 48000

/-! ### Data model

A `Nal` is one NAL unit as returned by the encoder: its payload bytes.
A `Frame` is one decoded video frame together with the timestamps the main
loop can read for it (frame pts, packet pts, packet dts; `none` models
AV_NOPTS_VALUE) and, as an abstraction of the external encoder, the NAL units
the encoder returns when this frame is submitted. -/

structure Nal where
  payload : List Nat
deriving DecidableEq, Repr

structure Frame where
  framePts : Option Int
  pktPts : Option Int
  pktDts : Option Int
  nals : List Nal
deriving DecidableEq, Repr

/-- Embeds lines 605-607 of `main`:
`timestamp_increment = skip_frames ? (OUTPUT_TIMEBASE / (FRAME_RATE / 2)) : (OUTPUT_TIMEBASE / FRAME_RATE)`. -/
def timestamp_increment (skip : Bool) : Nat :=
  if skip then OUTPUT_TIMEBASE / (FRAME_RATE / 2) else OUTPUT_TIMEBASE / FRAME_RATE

/-- Embeds lines 678-689 of `main`: the input pts used for the diagnostic
printf, falling back from frame pts to packet pts to packet dts to the
input frame counter. -/
def resolve_input_pts (f : Frame) (inputIdx : Nat) : Int :=
  match f.framePts with
  | some p => p
  | none =>
    match f.pktPts with
    | some p => p
    | none =>
      match f.pktDts with
      | some p => p
      | none => Int.ofNat inputIdx

/-- One processed (not skipped) frame of the main decode loop: the input frame
counter value, the input pts value that is logged, the output pts attached to
the submitted picture, and the NAL units the encoder returned. -/
structure OutFrame where
  inputIdx : Nat
  loggedPts : Int
  outputPts : Nat
  nals : List Nal
deriving DecidableEq, Repr

/-- Embeds the main decode loop of `main` (lines 642-761): `fc` is
`frame_count`, `ic` is `input_frame_count`.  A frame is skipped exactly when
`ctx.skip_frames && (input_frame_count % 2 == 1)` (line 669); a processed
frame is submitted with `output_pts = frame_count * timestamp_increment`
(line 692), after which `frame_count` is incremented; `input_frame_count`
is incremented for every decoded frame. -/
def runLoop (skip : Bool) : Nat → Nat → List Frame → List OutFrame
  | _, _, [] => []
  | fc, ic, f :: rest =>
    if skip && ic % 2 == 1 then
      runLoop skip fc (ic + 1) rest
    else
      { inputIdx := ic
        loggedPts := resolve_input_pts f ic
        outputPts := fc * timestamp_increment skip
        nals := f.nals } :: runLoop skip (fc + 1) (ic + 1) rest

/-- The processed frames of a whole run: the loop starts with
`frame_count = 0`, `input_frame_count = 0` (lines 583-584). -/
def processedFrames (skip : Bool) (frames : List Frame) : List OutFrame :=
  runLoop skip 0 0 frames

/-- The sequence of output timestamps attached to submitted pictures. -/
def outputPtsList (skip : Bool) (frames : List Frame) : List Nat :=
  (processedFrames skip frames).map (fun of => of.outputPts)

/-- Number of frames the loop processes, as a function of the starting input
index and the number of remaining decoded frames. -/
def processedCount (skip : Bool) : Nat → Nat → Nat
  | _, 0 => 0
  | ic, Nat.succ n => (if skip && ic % 2 == 1 then 0 else 1) + processedCount skip (ic + 1) n

theorem runLoop_length (skip : Bool) (fc ic : Nat) (frames : List Frame) :
    (runLoop skip fc ic frames).length = processedCount skip ic frames.length := by
  induction frames generalizing fc ic with
  | nil => simp [runLoop, processedCount]
  | cons f rest ih =>
    cases h : (skip && ic % 2 == 1) with
    | true => simp [runLoop, processedCount, h, ih]
    | false =>
      simp [runLoop, processedCount, h, ih]
      omega

theorem runLoop_map_outputPts (skip : Bool) (fc ic : Nat) (frames : List Frame) :
    (runLoop skip fc ic frames).map (fun of => of.outputPts)
      = (List.range' fc (processedCount skip ic frames.length)).map
          (fun j => j * timestamp_increment skip) := by
  induction frames generalizing fc ic with
  | nil => simp [runLoop, processedCount]
  | cons f rest ih =>
    cases hc : (skip && ic % 2 == 1) with
    | true => simp [runLoop, processedCount, hc, ih]
    | false =>
      simp only [runLoop, hc, Bool.false_eq_true, if_false, processedCount, List.map_cons,
        ih (fc + 1) (ic + 1), List.length_cons]
      rw [Nat.add_comm 1 (processedCount skip (ic + 1) rest.length), List.range'_succ]
      simp

theorem outputPtsList_eq_range (skip : Bool) (frames : List Frame) :
    outputPtsList skip frames
      = (List.range' 0 (processedCount skip 0 frames.length)).map
          (fun j => j * timestamp_increment skip) := by
  simp [outputPtsList, processedFrames, runLoop_map_outputPts]

theorem outputPtsList_get (skip : Bool) (frames : List Frame) (k : Nat)
    (h : k < (outputPtsList skip frames).length) :
    (outputPtsList skip frames).get ⟨k, h⟩ = k * timestamp_increment skip := by
  have key : ∀ (l : List Nat),
      l = (List.range' 0 (processedCount skip 0 frames.length)).map
            (fun j => j * timestamp_increment skip) →
      ∀ h3 : k < l.length, l.get ⟨k, h3⟩ = k * timestamp_increment skip := by
    intro l hl
    subst hl
    intro h3
    simp only [List.get_eq_getElem, List.getElem_map, List.getElem_range']
    simp
  exact key _ (outputPtsList_eq_range skip frames) h

theorem outputPtsList_pairwise (skip : Bool) (frames : List Frame) :
    List.Pairwise (· ≤ ·) (outputPtsList skip frames) := by
  rw [outputPtsList_eq_range]
  refine List.Pairwise.map _ ?_ (List.pairwise_lt_range' 0 _)
  intro a b hab
  exact Nat.mul_le_mul_right _ (Nat.le_of_lt hab)

theorem runLoop_map_inputIdx (skip : Bool) (fc ic : Nat) (frames : List Frame) :
    (runLoop skip fc ic frames).map (fun of => of.inputIdx)
      = (List.range' ic frames.length).filter (fun i => !(skip && i % 2 == 1)) := by
  induction frames generalizing fc ic with
  | nil => simp [runLoop]
  | cons f rest ih =>
    rw [List.length_cons, List.range'_succ, List.filter_cons]
    cases hc : (skip && ic % 2 == 1) with
    | true => simp [runLoop, hc, ih fc (ic + 1)]
    | false => simp [runLoop, hc, ih (fc + 1) (ic + 1)]

theorem processedCount_skip (ic n : Nat) :
    processedCount true ic n = if ic % 2 = 0 then (n + 1) / 2 else n / 2 := by
  induction n generalizing ic with
  | zero => simp [processedCount]
  | succ n ih =>
    rw [processedCount, ih (ic + 1)]
    rcases Nat.mod_two_eq_zero_or_one ic with h | h
    · have h1 : (ic + 1) % 2 = 1 := by omega
      simp [h, h1]
      try omega
    · have h1 : (ic + 1) % 2 = 0 := by omega
      simp [h, h1]
      try omega

/-- Concrete frames used to instantiate the theorems: a NAL whose first
payload byte 38 encodes NAL type 19 (an IRAP type), and ten identical
input frames. -/
def demoNal : Nal := { payload := [38, 1, 220, 9] }

def demoFrame : Frame :=
  { framePts := some 0, pktPts := none, pktDts := none, nals := [demoNal] }

def demoFrames10 : List Frame := List.replicate 10 demoFrame

/-- C1: the sequence of timestamps attached to submitted output frames is
monotonically non-decreasing and exactly arithmetic: the k-th processed
output frame carries timestamp k * increment, where the increment is
OUTPUT_TIMEBASE / FRAME_RATE = 960 in full-rate mode and
OUTPUT_TIMEBASE / (FRAME_RATE / 2) = 1920 in decimated mode, for every
number of input frames. -/
theorem C1_output_timestamps (skip : Bool) (frames : List Frame) :
    List.Pairwise (· ≤ ·) (outputPtsList skip frames) ∧
    (∀ k (h : k < (outputPtsList skip frames).length),
        (outputPtsList skip frames).get ⟨k, h⟩ = k * timestamp_increment skip) ∧
    timestamp_increment false = OUTPUT_TIMEBASE / FRAME_RATE ∧
    timestamp_increment true = OUTPUT_TIMEBASE / (FRAME_RATE / 2) ∧
    timestamp_increment false = 960 ∧
    timestamp_increment true = 1920 :=
  ⟨outputPtsList_pairwise skip frames, outputPtsList_get skip frames,
    by decide, by decide, by decide, by decide⟩

/-- Witness for C1 at a concrete input: ten frames, full-rate mode, the
timestamp of output frame 3 is 3 * 960. -/
theorem C1_output_timestamps_witness :
    (outputPtsList false demoFrames10).get ⟨3, by decide⟩ = 3 * timestamp_increment false :=
  (C1_output_timestamps false demoFrames10).2.1 3 (by decide)

/-- C2: in decimated mode exactly the odd-indexed input frames are dropped:
the processed input indices are precisely the even numbers below n, the
number of processed frames is ceil(n/2) = (n+1)/2, and a 10-frame input
yields exactly 5 output frames with timestamps 0, 1920, 3840, 5760, 7680. -/
theorem C2_decimation (frames : List Frame) :
    (processedFrames true frames).map (fun of => of.inputIdx)
        = (List.range frames.length).filter (fun i => i % 2 == 0) ∧
    (processedFrames true frames).length = (frames.length + 1) / 2 ∧
    (frames.length = 10 → outputPtsList true frames = [0, 1920, 3840, 5760, 7680]) := by
  refine ⟨?_, ?_, ?_⟩
  · rw [processedFrames, runLoop_map_inputIdx, List.range_eq_range']
    apply List.filter_congr
    intro i _
    rcases Nat.mod_two_eq_zero_or_one i with h | h <;> simp [h]
  · rw [processedFrames, runLoop_length, processedCount_skip]
    simp
  · intro h
    rw [outputPtsList_eq_range, h]
    decide

/-- Witness for C2 at a concrete input: the ten demo frames produce the five
expected timestamps in decimated mode. -/
theorem C2_decimation_witness :
    outputPtsList true demoFrames10 = [0, 1920, 3840, 5760, 7680] :=
  (C2_decimation demoFrames10).2.2 (by decide)

/-! ### Container packets: write_nals_to_mp4 and the flush loop -/

/-- One MP4 packet as constructed by `write_nals_to_mp4` (lines 204-258): the
payload is the concatenation of the NAL payloads (lines 214-231), pts and dts
are both the given pts (line 236), and the keyframe flag is the
caller-supplied flag (line 239). -/
structure Packet where
  data : List Nat
  pts : Int
  dts : Int
  isKey : Bool
deriving DecidableEq, Repr

def write_nals_to_mp4_packet (nals : List Nal) (pts : Int) (is_key_frame : Bool) : Packet :=
  { data := (nals.map (fun n => n.payload)).flatten
    pts := pts
    dts := pts
    isKey := is_key_frame }

/-- HEVC NAL unit type as read by the keyframe check (line 720):
bits 1-6 of the first payload byte, `(payload[0] >> 1) & 0x3F`. -/
def nal_type (n : Nal) : Nat := n.payload.headD 0 / 2 % 64

/-- Line 722: NAL types 16..21 are IRAP (keyframe) types. -/
def nal_is_irap (n : Nal) : Bool := decide (16 ≤ nal_type n) && decide (nal_type n ≤ 21)

/-- The keyframe scan of lines 716-726: the flag is set iff some NAL unit of
the set has an IRAP type. -/
def au_is_keyframe (nals : List Nal) : Bool := nals.any nal_is_irap

/-- The packets written by the main loop in container mode (lines 713-728):
for each processed frame whose encode call returned a non-empty NAL set, one
packet with the frame's output pts and the keyframe flag obtained by the
IRAP scan. -/
def mainLoopPackets (skip : Bool) (frames : List Frame) : List Packet :=
  (processedFrames skip frames).filterMap (fun of =>
    if of.nals = [] then none
    else some (write_nals_to_mp4_packet of.nals (Int.ofNat of.outputPts) (au_is_keyframe of.nals)))

/-- The value of `ctx.next_pts` after the main loop: 0 initially (line 195),
updated to the written pts by every `write_nals_to_mp4` call (line 242). -/
def next_pts_after_main (skip : Bool) (frames : List Frame) : Int :=
  (mainLoopPackets skip frames).foldl (fun _ p => p.pts) 0

/-- The flush loop (lines 764-784) in container mode.  Each drained NAL set
is written with pts `next_pts + timestamp_increment` and keyframe flag 0
(line 771); `write_nals_to_mp4` itself sets `next_pts` to the written pts
(line 242) whenever it writes (it returns early on an empty NAL set, lines
205-207), and line 772 then adds the increment to `next_pts` once more. -/
def flush_encoder_loop (inc : Nat) : Int -> List (List Nal) -> List Packet
  | _, [] => []
  | next, ns :: rest =>
    if ns = [] then
      flush_encoder_loop inc (next + inc) rest
    else
      write_nals_to_mp4_packet ns (next + inc) false ::
        flush_encoder_loop inc (next + inc + inc) rest

/-- All packets a container-mode run writes: main loop first, then flush. -/
def containerPackets (skip : Bool) (frames : List Frame) (flushNals : List (List Nal)) :
    List Packet :=
  mainLoopPackets skip frames
    ++ flush_encoder_loop (timestamp_increment skip) (next_pts_after_main skip frames) flushNals

theorem flush_encoder_loop_length (inc : Nat) (flushNals : List (List Nal)) :
    forall (last : Int), (forall ns, ns ∈ flushNals -> ns ≠ []) ->
      (flush_encoder_loop inc last flushNals).length = flushNals.length := by
  induction flushNals with
  | nil => simp [flush_encoder_loop]
  | cons ns rest ih =>
    intro last hne
    have hns : ¬ns = [] := hne ns (by simp)
    have hrest : forall ms, ms ∈ rest -> ms ≠ [] := fun ms hm => hne ms (by simp [hm])
    simp [flush_encoder_loop, hns, ih _ hrest]

theorem flush_encoder_loop_pts_opt (inc : Nat) (flushNals : List (List Nal)) :
    forall (last : Int) (j : Nat), (forall ns, ns ∈ flushNals -> ns ≠ []) ->
      j < flushNals.length ->
      ((flush_encoder_loop inc last flushNals).map (fun p => p.pts))[j]?
        = some (last + ((2 * j + 1) * inc : Nat)) := by
  induction flushNals with
  | nil =>
    intro last j _ hj
    simp at hj
  | cons ns rest ih =>
    intro last j hne hj
    have hns : ¬ns = [] := hne ns (by simp)
    have hrest : forall ms, ms ∈ rest -> ms ≠ [] := fun ms hm => hne ms (by simp [hm])
    simp only [flush_encoder_loop, if_neg hns, List.map_cons]
    cases j with
    | zero =>
      simp [write_nals_to_mp4_packet]
    | succ j =>
      rw [List.getElem?_cons_succ]
      rw [ih (last + inc + inc) j hrest (by simpa using hj)]
      congr 1
      push_cast
      ring

/-- C3 counterexample: the claim predicts that with last emitted pts 0 and
increment 960 two flushed NAL sets get timestamps 960 and 1920; the code
writes 960 and 2880, because next_pts is advanced both inside
write_nals_to_mp4 and by the flush loop. -/
theorem C3_counterexample :
    (flush_encoder_loop 960 0 [[demoNal], [demoNal]]).map (fun p => p.pts) = [960, 2880] ∧
    (2880 : Int) ≠ 0 + 2 * 960 := by
  decide

/-- C3 amended: during the end-of-stream flush the j-th drained non-empty
NAL set (0-indexed) is written with timestamp
last_emitted_pts + (2*j + 1) * increment: the first flushed packet continues
the increment from the last emitted value, but each further flushed packet
advances by two increments, because next_pts is advanced both by
write_nals_to_mp4 and by the flush loop. -/
theorem C3_amended_flush_pts (inc : Nat) (last : Int) (flushNals : List (List Nal))
    (hne : forall ns, ns ∈ flushNals -> ns ≠ []) :
    (flush_encoder_loop inc last flushNals).length = flushNals.length ∧
    forall j (h : j < (flush_encoder_loop inc last flushNals).length),
      ((flush_encoder_loop inc last flushNals).get ⟨j, h⟩).pts
        = last + ((2 * j + 1) * inc : Nat) := by
  have hlen := flush_encoder_loop_length inc flushNals last hne
  refine ⟨hlen, ?_⟩
  intro j h
  have hj : j < flushNals.length := by omega
  have base := flush_encoder_loop_pts_opt inc flushNals last j hne hj
  have h2 : ((flush_encoder_loop inc last flushNals).map (fun p => p.pts))[j]?
      = some (((flush_encoder_loop inc last flushNals).get ⟨j, h⟩).pts) := by
    rw [List.getElem?_eq_getElem (by simpa using h)]
    simp
  rw [h2] at base
  exact Option.some.inj base

/-- Witness for the amended C3: with increment 960 and last emitted pts 0,
the second flushed packet carries timestamp (2*1 + 1) * 960 = 2880. -/
theorem C3_amended_flush_pts_witness :
    ((flush_encoder_loop 960 0 [[demoNal], [demoNal]]).get ⟨1, by decide⟩).pts
        = 0 + ((2 * 1 + 1) * 960 : Nat) :=
  (C3_amended_flush_pts 960 0 [[demoNal], [demoNal]] (by decide)).2 1 (by decide)

theorem flush_encoder_loop_isKey (inc : Nat) (flushNals : List (List Nal)) :
    forall (next : Int), forall p, p ∈ flush_encoder_loop inc next flushNals ->
      p.isKey = false := by
  induction flushNals with
  | nil => simp [flush_encoder_loop]
  | cons ns rest ih =>
    intro next p hp
    by_cases hns : ns = []
    · rw [flush_encoder_loop.eq_def] at hp
      simp only [if_pos hns] at hp
      exact ih _ p hp
    · rw [flush_encoder_loop.eq_def] at hp
      simp only [if_neg hns, List.mem_cons] at hp
      rcases hp with hp | hp
      · rw [hp]
        rfl
      · exact ih _ p hp

theorem flush_encoder_loop_dts (inc : Nat) (flushNals : List (List Nal)) :
    forall (next : Int), forall p, p ∈ flush_encoder_loop inc next flushNals ->
      p.dts = p.pts := by
  induction flushNals with
  | nil => simp [flush_encoder_loop]
  | cons ns rest ih =>
    intro next p hp
    by_cases hns : ns = []
    · rw [flush_encoder_loop.eq_def] at hp
      simp only [if_pos hns] at hp
      exact ih _ p hp
    · rw [flush_encoder_loop.eq_def] at hp
      simp only [if_neg hns, List.mem_cons] at hp
      rcases hp with hp | hp
      · rw [hp]
        rfl
      · exact ih _ p hp

theorem mainLoopPackets_dts (skip : Bool) (frames : List Frame) :
    forall p, p ∈ mainLoopPackets skip frames -> p.dts = p.pts := by
  intro p hp
  rw [mainLoopPackets] at hp
  rcases List.mem_filterMap.mp hp with ⟨of, _, hof⟩
  by_cases h : of.nals = []
  · simp [h] at hof
  · rw [if_neg h] at hof
    rw [← Option.some.inj hof]
    rfl

theorem mainLoopPackets_isKey (skip : Bool) (frames : List Frame) :
    (mainLoopPackets skip frames).map (fun p => p.isKey)
      = ((processedFrames skip frames).filter (fun of => !of.nals.isEmpty)).map
          (fun of => au_is_keyframe of.nals) := by
  rw [mainLoopPackets]
  generalize processedFrames skip frames = l
  induction l with
  | nil => simp
  | cons of rest ih =>
    by_cases h : of.nals = []
    · have hb : of.nals.isEmpty = true := by simp [h]
      simpa [List.filterMap_cons, List.filter_cons, h, hb] using ih
    · have hb : of.nals.isEmpty = false := by simpa using h
      simpa [List.filterMap_cons, List.filter_cons, h, hb, write_nals_to_mp4_packet] using ih

/-- C5 counterexample: a NAL set containing an IRAP NAL (type 19) drained
during the flush is written with keyframe flag false even though the IRAP
scan of that set yields true - the flush path passes a literal 0 flag. -/
theorem C5_counterexample :
    (flush_encoder_loop 960 0 [[demoNal]]).map (fun p => p.isKey) = [false] ∧
    au_is_keyframe [demoNal] = true := by
  decide

/-- C5 amended: every container packet carries the given timestamp as both
decode and presentation time; the keyframe flag is derived by the IRAP scan
(NAL type in 16..21, bits 1-6 of the first payload byte) for the packets
written in the main loop, while every packet written during the
end-of-stream flush carries keyframe flag false regardless of its NAL
types. -/
theorem C5_amended_packets (skip : Bool) (frames : List Frame) (flushNals : List (List Nal)) :
    (forall p, p ∈ containerPackets skip frames flushNals -> p.dts = p.pts) ∧
    ((mainLoopPackets skip frames).map (fun p => p.isKey)
        = ((processedFrames skip frames).filter (fun of => !of.nals.isEmpty)).map
            (fun of => au_is_keyframe of.nals)) ∧
    (forall (inc : Nat) (next : Int) (ns : List (List Nal)),
        forall p, p ∈ flush_encoder_loop inc next ns -> p.isKey = false) := by
  refine ⟨?_, mainLoopPackets_isKey skip frames, ?_⟩
  · intro p hp
    rcases List.mem_append.mp hp with h | h
    · exact mainLoopPackets_dts skip frames p h
    · exact flush_encoder_loop_dts _ flushNals _ p h
  · intro inc next ns p hp
    exact flush_encoder_loop_isKey inc ns next p hp

/-- Witness for the amended C5: the first container packet of a concrete
full-rate run has equal pts and dts. -/
theorem C5_amended_packets_witness :
    ((containerPackets false demoFrames10 []).headD (write_nals_to_mp4_packet [] 0 false)).dts
      = ((containerPackets false demoFrames10 []).headD (write_nals_to_mp4_packet [] 0 false)).pts :=
  (C5_amended_packets false demoFrames10 []).1 _ (by decide)

/-! ### Sink-call traces: bootstrap before data, for both variants -/

/-- The kinds of sink calls `main` performs, in program order. -/
inductive SinkEvent where
  | bootstrap
  | unit
deriving DecidableEq, Repr

def SinkEvent.isBootstrap : SinkEvent → Bool
  | .bootstrap => true
  | .unit => false

def SinkEvent.isUnit : SinkEvent → Bool
  | .bootstrap => false
  | .unit => true

/-- The sink calls of a container-mode run, in program order: the header
write of line 624 happens once, before the main loop (line 642) and the
flush loop (line 764); every later container write is a data packet. -/
def containerTrace (skip : Bool) (frames : List Frame) (flushNals : List (List Nal)) :
    List SinkEvent :=
  SinkEvent.bootstrap :: (containerPackets skip frames flushNals).map (fun _ => SinkEvent.unit)

/-- The access-unit groups the raw path writes after the headers: one group
per processed frame with a non-empty NAL set (lines 713, 731-738), then one
group per drained flush NAL set (lines 775-782). -/
def rawUnitWrites (skip : Bool) (frames : List Frame) (flushNals : List (List Nal)) :
    List (List Nal) :=
  (processedFrames skip frames).filterMap (fun of =>
      if of.nals = [] then none else some of.nals)
    ++ flushNals

/-- The sink calls of a raw-mode run, in program order: the header write of
lines 631-638 happens once, before the main loop and the flush loop. -/
def rawTrace (skip : Bool) (frames : List Frame) (flushNals : List (List Nal)) :
    List SinkEvent :=
  SinkEvent.bootstrap :: (rawUnitWrites skip frames flushNals).map (fun _ => SinkEvent.unit)

theorem bootstrap_trace_shape (tail : List SinkEvent)
    (htail : ∀ e ∈ tail, e = SinkEvent.unit) :
    (SinkEvent.bootstrap :: tail).countP SinkEvent.isBootstrap = 1 ∧
    ∀ i j (hi : i < (SinkEvent.bootstrap :: tail).length)
        (hj : j < (SinkEvent.bootstrap :: tail).length),
      ((SinkEvent.bootstrap :: tail).get ⟨i, hi⟩).isBootstrap = true →
      ((SinkEvent.bootstrap :: tail).get ⟨j, hj⟩).isUnit = true → i < j := by
  constructor
  · rw [List.countP_cons]
    have : tail.countP SinkEvent.isBootstrap = 0 := by
      rw [List.countP_eq_zero]
      intro e he
      rw [htail e he]
      simp [SinkEvent.isUnit, SinkEvent.isBootstrap]
    rw [this]
    rfl
  · intro i j hi hj hbi huj
    cases i with
    | zero =>
      cases j with
      | zero =>
        simp [SinkEvent.isBootstrap, SinkEvent.isUnit] at huj
      | succ j => exact Nat.succ_pos j
    | succ i =>
      exfalso
      have hmem : (SinkEvent.bootstrap :: tail).get
          ⟨i + 1, hi⟩ ∈ tail := by
        simp only [List.get_eq_getElem, List.getElem_cons_succ]
        exact List.getElem_mem _
      rw [htail _ hmem] at hbi
      simp [SinkEvent.isBootstrap] at hbi

/-- C4: for every run and both sink variants, the bootstrap (header) write
happens exactly once and strictly before every data-unit write. -/
theorem C4_bootstrap_order (skip : Bool) (frames : List Frame) (flushNals : List (List Nal)) :
    ((containerTrace skip frames flushNals).countP SinkEvent.isBootstrap = 1 ∧
      ∀ i j (hi : i < (containerTrace skip frames flushNals).length)
          (hj : j < (containerTrace skip frames flushNals).length),
        ((containerTrace skip frames flushNals).get ⟨i, hi⟩).isBootstrap = true →
        ((containerTrace skip frames flushNals).get ⟨j, hj⟩).isUnit = true → i < j) ∧
    ((rawTrace skip frames flushNals).countP SinkEvent.isBootstrap = 1 ∧
      ∀ i j (hi : i < (rawTrace skip frames flushNals).length)
          (hj : j < (rawTrace skip frames flushNals).length),
        ((rawTrace skip frames flushNals).get ⟨i, hi⟩).isBootstrap = true →
        ((rawTrace skip frames flushNals).get ⟨j, hj⟩).isUnit = true → i < j) := by
  constructor
  · exact bootstrap_trace_shape _ (by
      intro e he
      rcases List.mem_map.mp he with ⟨p, _, hp⟩
      exact hp.symm)
  · exact bootstrap_trace_shape _ (by
      intro e he
      rcases List.mem_map.mp he with ⟨p, _, hp⟩
      exact hp.symm)

/-- Witness for C4: in a concrete container-mode run the single bootstrap
event (index 0) precedes the first data write (index 1). -/
theorem C4_bootstrap_order_witness :
    (containerTrace false demoFrames10 []).countP SinkEvent.isBootstrap = 1 ∧ (0 : Nat) < 1 :=
  ⟨(C4_bootstrap_order false demoFrames10 []).1.1,
    (C4_bootstrap_order false demoFrames10 []).1.2 0 1
      (by decide) (by decide) (by decide) (by decide)⟩

/-! ### Raw-HEVC output path -/

/-- One start-code-prefixed NAL write of the raw path: the literal 4-byte
start code 0x00 0x00 0x00 0x01 (`uint8_t start_code[4] = {0, 0, 0, 1}`,
written with `fwrite(start_code, 1, 4, ...)`) followed by the payload
(lines 633-637, 733-737, 777-781). -/
def rawWriteNal (n : Nal) : List Nat := 0 :: 0 :: 0 :: 1 :: n.payload

def rawWriteNals (nals : List Nal) : List Nat := (nals.map rawWriteNal).flatten

/-- The complete byte stream the raw-HEVC output path writes: the encoder
headers first (lines 631-638), then each processed frame's NAL set (written
only when the encode call returned NALs, line 713), then each drained flush
NAL set (lines 775-782). -/
def rawOutput (skip : Bool) (headerNals : List Nal) (frames : List Frame)
    (flushNals : List (List Nal)) : List Nat :=
  rawWriteNals headerNals
    ++ ((processedFrames skip frames).map (fun of =>
          if of.nals = [] then [] else rawWriteNals of.nals)).flatten
    ++ (flushNals.map rawWriteNals).flatten

/-- Every NAL unit a run writes to the raw output, in write order. -/
def writtenNals (skip : Bool) (headerNals : List Nal) (frames : List Frame)
    (flushNals : List (List Nal)) : List Nal :=
  headerNals ++ ((processedFrames skip frames).map (fun of => of.nals)).flatten
    ++ flushNals.flatten

theorem rawWriteNals_flatten (l : List (List Nal)) :
    (l.map rawWriteNals).flatten = (l.flatten.map rawWriteNal).flatten := by
  induction l with
  | nil => simp
  | cons a rest ih => simp [rawWriteNals, List.map_append, List.flatten_append, ih]

theorem runLoop_map_nals_congr (skip : Bool) (fc ic : Nat) (f1 f2 : List Frame)
    (h : f1.map (fun f => f.nals) = f2.map (fun f => f.nals)) :
    (runLoop skip fc ic f1).map (fun of => of.nals)
      = (runLoop skip fc ic f2).map (fun of => of.nals) := by
  induction f1 generalizing fc ic f2 with
  | nil =>
    cases f2 with
    | nil => rfl
    | cons b r2 => simp at h
  | cons a r1 ih =>
    cases f2 with
    | nil => simp at h
    | cons b r2 =>
      simp only [List.map_cons, List.cons.injEq] at h
      obtain ⟨hab, hr⟩ := h
      cases hc : (skip && ic % 2 == 1) with
      | true =>
        simp only [runLoop, hc, if_true]
        exact ih fc (ic + 1) r2 hr
      | false =>
        simp only [runLoop, hc, Bool.false_eq_true, if_false, List.map_cons]
        rw [hab, ih (fc + 1) (ic + 1) r2 hr]

/-- C6: in raw mode every written access unit - header units, per-frame
units and flush-drained units - is prefixed with exactly the 4 bytes
0x00 0x00 0x00 0x01, and the input timestamps (hence the output timestamps
and keyframe flags, which the raw path never reads) have no effect on the
output bytes: two runs over frame lists with identical per-frame NAL data
produce identical raw output. -/
theorem C6_raw_start_codes (skip : Bool) (headerNals : List Nal) (frames : List Frame)
    (flushNals : List (List Nal)) :
    rawOutput skip headerNals frames flushNals
        = ((writtenNals skip headerNals frames flushNals).map
            (fun n => [0, 0, 0, 1] ++ n.payload)).flatten ∧
    (∀ frames2, frames.map (fun f => f.nals) = frames2.map (fun f => f.nals) →
        rawOutput skip headerNals frames flushNals
          = rawOutput skip headerNals frames2 flushNals) := by
  have hguard : ∀ (l : List OutFrame),
      (l.map (fun of => if of.nals = [] then [] else rawWriteNals of.nals)).flatten
        = ((l.map (fun of => of.nals)).map rawWriteNals).flatten := by
    intro l
    rw [List.map_map]
    apply congrArg
    apply List.map_congr_left
    intro of _
    by_cases h : of.nals = []
    · simp [h, rawWriteNals]
    · simp [h, Function.comp]
  constructor
  · rw [rawOutput, writtenNals]
    simp only [List.map_append, List.flatten_append]
    have h1 : rawWriteNals headerNals
        = (headerNals.map (fun n => [0, 0, 0, 1] ++ n.payload)).flatten := rfl
    have h2 : ((processedFrames skip frames).map
          (fun of => if of.nals = [] then [] else rawWriteNals of.nals)).flatten
        = ((((processedFrames skip frames).map (fun of => of.nals)).flatten).map
            (fun n => [0, 0, 0, 1] ++ n.payload)).flatten := by
      rw [hguard, rawWriteNals_flatten]
      rfl
    have h3 : (flushNals.map rawWriteNals).flatten
        = ((flushNals.flatten).map (fun n => [0, 0, 0, 1] ++ n.payload)).flatten := by
      rw [rawWriteNals_flatten]
      rfl
    rw [h1, h2, h3]
  · intro frames2 hsame
    rw [rawOutput, rawOutput]
    have hnals : (processedFrames skip frames).map (fun of => of.nals)
        = (processedFrames skip frames2).map (fun of => of.nals) :=
      runLoop_map_nals_congr skip 0 0 frames frames2 hsame
    rw [hguard, hguard, hnals]

/-- Witness for C6: a concrete decimated run produces the same raw bytes
when every input timestamp is changed. -/
theorem C6_raw_start_codes_witness :
    rawOutput true [demoNal] demoFrames10 [[demoNal]]
      = rawOutput true [demoNal]
          (demoFrames10.map (fun f => { f with framePts := none, pktPts := some 123 }))
          [[demoNal]] :=
  (C6_raw_start_codes true [demoNal] demoFrames10 [[demoNal]]).2 _ (by decide)

/-! ### MP4 bootstrap metadata: write_hevc_headers_to_mp4 -/

/-- The muxer-visible actions of `write_hevc_headers_to_mp4`. -/
inductive MuxAction where
  | storeExtradata (bytes : List Nat)
  | writeContainerHeader
deriving DecidableEq, Repr

/-- The 4 length-prefix bytes of lines 283-286:
`(size >> 24) & 0xFF, (size >> 16) & 0xFF, (size >> 8) & 0xFF, size & 0xFF`. -/
def be32 (size : Nat) : List Nat :=
  [size / 2 ^ 24 % 256, size / 2 ^ 16 % 256, size / 2 ^ 8 % 256, size % 256]

/-- The extradata block built by lines 280-291: for each header NAL in
order, 4 big-endian length bytes followed by the payload. -/
def hevc_headers_extradata (nals : List Nal) : List Nat :=
  (nals.map (fun n => be32 n.payload.length ++ n.payload)).flatten

/-- Embeds `write_hevc_headers_to_mp4` (lines 261-313) as the sequence of
muxer-visible actions: on a non-empty NAL set the extradata block is stored
in the stream codec parameters (lines 294-303) and only then the container
header is written (line 306); on an empty set the function returns without
doing either (lines 262-264). -/
def write_hevc_headers_to_mp4 (nals : List Nal) : List MuxAction :=
  if nals = [] then []
  else [MuxAction.storeExtradata (hevc_headers_extradata nals),
        MuxAction.writeContainerHeader]

/-- C7: in container mode the bootstrap metadata block is the in-order
concatenation of the header access units, each preceded by the 4-byte
big-endian encoding of its byte length; the block size is the sum of
(4 + unit size) over the units; and it is stored as the stream's
out-of-band extradata strictly before the container header is written. -/
theorem C7_bootstrap_extradata (nals : List Nal) (hne : nals ≠ [])
    (hsz : ∀ n ∈ nals, n.payload.length < 2 ^ 32) :
    write_hevc_headers_to_mp4 nals
        = [MuxAction.storeExtradata (hevc_headers_extradata nals),
           MuxAction.writeContainerHeader] ∧
    hevc_headers_extradata nals
        = (nals.map (fun n => be32 n.payload.length ++ n.payload)).flatten ∧
    (hevc_headers_extradata nals).length
        = (nals.map (fun n => 4 + n.payload.length)).sum ∧
    ∀ n ∈ nals, (be32 n.payload.length).length = 4 ∧
      (be32 n.payload.length).foldl (fun a b => a * 256 + b) 0 = n.payload.length := by
  refine ⟨?_, rfl, ?_, ?_⟩
  · rw [write_hevc_headers_to_mp4, if_neg hne]
  · rw [hevc_headers_extradata, List.length_flatten, List.map_map]
    congr 1
    apply List.map_congr_left
    intro n _
    simp [be32, Function.comp]
    omega
  · intro n hn
    refine ⟨rfl, ?_⟩
    have h := hsz n hn
    simp only [be32, List.foldl_cons, List.foldl_nil]
    omega

/-- Witness for C7: the extradata block for one concrete 4-byte header NAL
has length 4 + 4 and the expected action order. -/
theorem C7_bootstrap_extradata_witness :
    write_hevc_headers_to_mp4 [demoNal]
        = [MuxAction.storeExtradata (hevc_headers_extradata [demoNal]),
           MuxAction.writeContainerHeader] ∧
    (hevc_headers_extradata [demoNal]).length
        = ([demoNal].map (fun n => 4 + n.payload.length)).sum :=
  ⟨(C7_bootstrap_extradata [demoNal] (by decide) (by decide)).1,
    (C7_bootstrap_extradata [demoNal] (by decide) (by decide)).2.2.1⟩

/-! ### Noninterference of input timestamps -/

/-- The pipeline-relevant projection of a processed frame: everything except
the logged input pts. -/
theorem runLoop_core_congr (skip : Bool) (fc ic : Nat) (f1 f2 : List Frame)
    (h : f1.map (fun f => f.nals) = f2.map (fun f => f.nals)) :
    (runLoop skip fc ic f1).map (fun of => (of.inputIdx, of.outputPts, of.nals))
      = (runLoop skip fc ic f2).map (fun of => (of.inputIdx, of.outputPts, of.nals)) := by
  induction f1 generalizing fc ic f2 with
  | nil =>
    cases f2 with
    | nil => rfl
    | cons b r2 => simp at h
  | cons a r1 ih =>
    cases f2 with
    | nil => simp at h
    | cons b r2 =>
      simp only [List.map_cons, List.cons.injEq] at h
      obtain ⟨hab, hr⟩ := h
      cases hc : (skip && ic % 2 == 1) with
      | true =>
        simp only [runLoop, hc, if_true]
        exact ih fc (ic + 1) r2 hr
      | false =>
        simp only [runLoop, hc, Bool.false_eq_true, if_false, List.map_cons]
        rw [hab, ih (fc + 1) (ic + 1) r2 hr]

/-- The packet the main loop would write for a given processed-frame core. -/
def packetOfCore : Nat × Nat × List Nal → Option Packet
  | (_, pts, ns) =>
    if ns = [] then none
    else some (write_nals_to_mp4_packet ns (Int.ofNat pts) (au_is_keyframe ns))

theorem mainLoopPackets_eq_core (skip : Bool) (frames : List Frame) :
    mainLoopPackets skip frames
      = ((processedFrames skip frames).map
          (fun of => (of.inputIdx, of.outputPts, of.nals))).filterMap packetOfCore := by
  rw [mainLoopPackets, List.filterMap_map]
  rfl

theorem mainLoopPackets_congr (skip : Bool) (f1 f2 : List Frame)
    (h : f1.map (fun f => f.nals) = f2.map (fun f => f.nals)) :
    mainLoopPackets skip f1 = mainLoopPackets skip f2 := by
  rw [mainLoopPackets_eq_core, mainLoopPackets_eq_core, processedFrames, processedFrames,
    runLoop_core_congr skip 0 0 f1 f2 h]

/-- C8: the emitted output timestamps never depend on the input
timestamps: two runs over frame lists that agree on the per-frame NAL data
(in particular, two runs differing only in the source frames' and packets'
timestamps) produce the identical output-timestamp sequence - and in fact
identical container packets; input timestamps reach only the logged
values. -/
theorem C8_timestamp_noninterference (skip : Bool) (f1 f2 : List Frame)
    (h : f1.map (fun f => f.nals) = f2.map (fun f => f.nals)) :
    outputPtsList skip f1 = outputPtsList skip f2 ∧
    ∀ flushNals, containerPackets skip f1 flushNals = containerPackets skip f2 flushNals := by
  have hlen : f1.length = f2.length := by
    have := congrArg List.length h
    simpa using this
  have hmain := mainLoopPackets_congr skip f1 f2 h
  have hnext : next_pts_after_main skip f1 = next_pts_after_main skip f2 := by
    rw [next_pts_after_main, next_pts_after_main, hmain]
  constructor
  · rw [outputPtsList_eq_range, outputPtsList_eq_range, hlen]
  · intro flushNals
    rw [containerPackets, containerPackets, hmain, hnext]

/-- Witness for C8: retiming every frame of a concrete run leaves the
output-timestamp sequence unchanged. -/
theorem C8_timestamp_noninterference_witness :
    outputPtsList true demoFrames10
      = outputPtsList true
          (demoFrames10.map (fun f => { f with framePts := some 777, pktDts := some 5 })) :=
  (C8_timestamp_noninterference true demoFrames10 _ (by decide)).1

/-! ### Exit codes of main -/

/-- The outcomes of the fallible external calls `main` makes. -/
structure Env where
  initDecoderOk : Bool
  initEncoderOk : Bool
  muxerInitOk : Bool
  outputOpenOk : Bool
  headersOk : Bool
  headerWriteOk : Bool
  packetWriteOk : List Bool
deriving DecidableEq, Repr

/-- Embeds the return paths of `main` (lines 522-790): 1 for a
decoder/encoder initialization failure (line 562), an MP4 muxer
initialization failure (line 570), a raw-output open failure (line 578), a
header-retrieval failure (line 618), or a container header-write failure
(line 627); after that point `main` always returns 0 (line 789) - the
results of the per-packet data writes (line 728 in the loop, line 771 in
the flush) and of the raw-mode fwrites are never checked. -/
def mainExit (mp4 : Bool) (env : Env) : Nat :=
  if !env.initDecoderOk || !env.initEncoderOk then 1
  else if mp4 && !env.muxerInitOk then 1
  else if !mp4 && !env.outputOpenOk then 1
  else if !env.headersOk then 1
  else if mp4 && !env.headerWriteOk then 1
  else 0

/-- A run in which every initialization succeeds but the container write of
the first data packet fails. -/
def envWriteFails : Env :=
  { initDecoderOk := true, initEncoderOk := true, muxerInitOk := true,
    outputOpenOk := true, headersOk := true, headerWriteOk := true,
    packetWriteOk := [false] }

/-- C9 counterexample: with every initialization succeeding and the
container write of the first data packet failing, main still returns 0 -
the return value of write_nals_to_mp4 at line 728 is discarded, so a sink
write failure on an output packet is not fatal and does not cause a
non-zero exit. -/
theorem C9_counterexample :
    mainExit true envWriteFails = 0 ∧ envWriteFails.packetWriteOk = [false] := by
  decide

/-- C9 amended: the process exits 0 on success and 1 on initialization
failures (decoder, encoder, muxer or raw-output open, header retrieval,
container header write); data-packet write failures do not influence the
exit status, which stays 0. -/
theorem C9_amended_exit (mp4 : Bool) (env : Env) :
    (mainExit mp4 env = 0 ∨ mainExit mp4 env = 1) ∧
    (mainExit mp4 env = 0 ↔
      (env.initDecoderOk = true ∧ env.initEncoderOk = true ∧
        (mp4 = true → env.muxerInitOk = true ∧ env.headerWriteOk = true) ∧
        (mp4 = false → env.outputOpenOk = true) ∧ env.headersOk = true)) ∧
    (∀ pw, mainExit mp4 { env with packetWriteOk := pw } = mainExit mp4 env) := by
  rcases env with ⟨d, e, m, o, hd, hw, pw⟩
  refine ⟨?_, ?_, fun pw2 => rfl⟩
  · cases mp4 <;> cases d <;> cases e <;> cases m <;> cases o <;> cases hd <;> cases hw <;>
      simp [mainExit]
  · cases mp4 <;> cases d <;> cases e <;> cases m <;> cases o <;> cases hd <;> cases hw <;>
      simp [mainExit]

/-- Witness for the amended C9: a concrete environment with a failing packet
write exits with status 0 or 1 (in fact 0). -/
theorem C9_amended_exit_witness :
    mainExit true envWriteFails = 0 ∨ mainExit true envWriteFails = 1 :=
  (C9_amended_exit true envWriteFails).1

/-! ### Plane layout of the reused output buffer -/

/-- The plane pointers and strides `prepare_for_encoding` sets on the x265
picture (lines 127-134), as (byte offset into scaled_buffer, stride)
pairs: Y at offset 0 stride OUTPUT_WIDTH, U at OUTPUT_WIDTH*OUTPUT_HEIGHT
stride OUTPUT_WIDTH/2, V at OUTPUT_WIDTH*OUTPUT_HEIGHT +
OUTPUT_WIDTH*OUTPUT_HEIGHT/4 stride OUTPUT_WIDTH/2. -/
def prepare_for_encoding_planes : List (Nat × Nat) :=
  [(0, OUTPUT_WIDTH),
   (OUTPUT_WIDTH * OUTPUT_HEIGHT, OUTPUT_WIDTH / 2),
   (OUTPUT_WIDTH * OUTPUT_HEIGHT + OUTPUT_WIDTH * OUTPUT_HEIGHT / 4, OUTPUT_WIDTH / 2)]

/-- The destination plane pointers and linesizes `process_frame_with_swscale`
passes to sws_scale (lines 394-408), as (byte offset, stride) pairs. -/
def process_frame_dst_planes : List (Nat × Nat) :=
  [(0, OUTPUT_WIDTH),
   (OUTPUT_WIDTH * OUTPUT_HEIGHT, OUTPUT_WIDTH / 2),
   (OUTPUT_WIDTH * OUTPUT_HEIGHT + OUTPUT_WIDTH * OUTPUT_HEIGHT / 4, OUTPUT_WIDTH / 2)]

/-- Size of the reused output buffer allocated in `init_decoder`
(lines 511-513): scaled_y_size + 2 * scaled_uv_size. -/
def scaled_buffer_size : Nat :=
  OUTPUT_WIDTH * OUTPUT_HEIGHT + 2 * (OUTPUT_WIDTH * OUTPUT_HEIGHT / 4)

/-- Plane heights of the 4:2:0 output image: full height for Y, half for
each chroma plane. -/
def output_plane_heights : List Nat := [OUTPUT_HEIGHT, OUTPUT_HEIGHT / 2, OUTPUT_HEIGHT / 2]

/-- C10: the encoder picture's plane offsets and strides exactly match the
scaler's destination planes and linesizes over the single reused buffer;
each plane (offset + stride * plane height) stays within the allocated
buffer of OUTPUT_WIDTH*OUTPUT_HEIGHT*3/2 bytes, and the three planes tile
the buffer exactly: Y ends where U starts, U ends where V starts, V ends at
the buffer size. -/
theorem C10_plane_layout :
    prepare_for_encoding_planes = process_frame_dst_planes ∧
    scaled_buffer_size = OUTPUT_WIDTH * OUTPUT_HEIGHT * 3 / 2 ∧
    ((prepare_for_encoding_planes.zip output_plane_heights).all
        (fun ph => ph.1.1 + ph.1.2 * ph.2 ≤ scaled_buffer_size)) = true ∧
    ((prepare_for_encoding_planes.zip output_plane_heights).map
        (fun ph => ph.1.1 + ph.1.2 * ph.2))
      = [OUTPUT_WIDTH * OUTPUT_HEIGHT,
         OUTPUT_WIDTH * OUTPUT_HEIGHT + OUTPUT_WIDTH * OUTPUT_HEIGHT / 4,
         scaled_buffer_size] := by
  decide

end HevcProcessor
